import Mathlib

/-!
Verification of the SeventhLayer WebSocket server
(`src/websocket_server.py`, `src/server.py`) against its specification.

Bytes are modelled as natural numbers (each inbound byte is `0 ≤ b ≤ 255`;
the bit-mask arithmetic of the source is translated with `&&&`, `|||`, `^^^`
on `Nat`).  Python byte strings (`bytes` / `bytearray`) are `List Nat`;
Python `str` values are lists of Unicode scalar values (`List Nat`).
`self.request.send(...)` calls are collected in order as a `List (List Nat)`.
-/

/-! ### Frame-header constants (`websocket_server.py`, lines 29-41) -/

def FIN : Nat := 0x80
def OPCODE : Nat := 0x0f
def MASKED : Nat := 0x80
def PAYLOAD_LEN : Nat := 0x7f
def PAYLOAD_LEN_EXT16 : Nat := 0x7e
def PAYLOAD_LEN_EXT64 : Nat := 0x7f

def OPCODE_CONTINUATION : Nat := 0x0
def OPCODE_TEXT : Nat := 0x1
def OPCODE_BINARY : Nat := 0x2
def OPCODE_CLOSE_CONN : Nat := 0x8
def OPCODE_PING : Nat := 0x9
def OPCODE_PONG : Nat := 0xA

/-! ### UTF-8 codec

`send_text` / `continue_send_text` validate payloads with
`bytes.decode('utf-8')` (`try_decode_UTF8`) and re-encode with
`str.encode('UTF-8')` (`encode_to_UTF8`).  We model Python's strict UTF-8
decoder exactly: continuation bytes are `0x80-0xBF`, overlong encodings,
surrogates (`0xED A0-BF`), and code points above `0x10FFFF` are rejected,
as is any truncated sequence.  Decoding yields the list of Unicode scalar
values; encoding is the standard UTF-8 serialisation. -/

/-- UTF-8 encoding of one Unicode scalar value (well-formed for
`c < 0x110000`, `c` not a surrogate — exactly what `utf8Decode` yields). -/
def utf8EncodeChar (c : Nat) : List Nat :=
  if c < 0x80 then [c]
  else if c < 0x800 then [0xC0 + c / 64, 0x80 + c % 64]
  else if c < 0x10000 then
    [0xE0 + c / 4096, 0x80 + (c / 64) % 64, 0x80 + c % 64]
  else
    [0xF0 + c / 262144, 0x80 + (c / 4096) % 64, 0x80 + (c / 64) % 64, 0x80 + c % 64]

/-- `str.encode('UTF-8')` on a list of Unicode scalar values. -/
def utf8Encode (cs : List Nat) : List Nat :=
  (cs.map utf8EncodeChar).flatten

/-! Python's strict `bytes.decode('utf-8')`: `some` of the scalar values on
valid input, `none` where Python raises `UnicodeDecodeError`.  Split into one
helper per sequence length so that each definition is a single-level match. -/
mutual

/-- Strict UTF-8 decoding of a byte string into Unicode scalar values. -/
def utf8Decode : List Nat → Option (List Nat)
  | [] => some []
  | b :: rest =>
    if b < 0x80 then
      (utf8Decode rest).map (fun cs => b :: cs)
    else if b < 0xC2 then none
    else if b < 0xE0 then utf8DecodeTwo b rest
    else if b < 0xF0 then utf8DecodeThree b rest
    else if b < 0xF5 then utf8DecodeFour b rest
    else none
termination_by structural l => l

/-- Continuation of a two-byte UTF-8 sequence with lead byte `b`. -/
def utf8DecodeTwo (b : Nat) : List Nat → Option (List Nat)
  | [] => none
  | b1 :: r =>
    if 0x80 ≤ b1 ∧ b1 < 0xC0 then
      (utf8Decode r).map (fun cs => ((b - 0xC0) * 64 + (b1 - 0x80)) :: cs)
    else none
termination_by structural l => l

/-- Continuation of a three-byte UTF-8 sequence with lead byte `b` (the lead
byte restricts the first continuation byte: no overlongs, no surrogates). -/
def utf8DecodeThree (b : Nat) : List Nat → Option (List Nat)
  | [] => none
  | [_] => none
  | b1 :: b2 :: r =>
    if (if b = 0xE0 then 0xA0 ≤ b1 ∧ b1 < 0xC0
        else if b = 0xED then 0x80 ≤ b1 ∧ b1 < 0xA0
        else 0x80 ≤ b1 ∧ b1 < 0xC0) ∧ 0x80 ≤ b2 ∧ b2 < 0xC0 then
      (utf8Decode r).map
        (fun cs => ((b - 0xE0) * 4096 + (b1 - 0x80) * 64 + (b2 - 0x80)) :: cs)
    else none
termination_by structural l => l

/-- Continuation of a four-byte UTF-8 sequence with lead byte `b` (the lead
byte restricts the first continuation byte: no overlongs, max `0x10FFFF`). -/
def utf8DecodeFour (b : Nat) : List Nat → Option (List Nat)
  | [] => none
  | [_] => none
  | [_, _] => none
  | b1 :: b2 :: b3 :: r =>
    if (if b = 0xF0 then 0x90 ≤ b1 ∧ b1 < 0xC0
        else if b = 0xF4 then 0x80 ≤ b1 ∧ b1 < 0x90
        else 0x80 ≤ b1 ∧ b1 < 0xC0) ∧
        (0x80 ≤ b2 ∧ b2 < 0xC0) ∧ (0x80 ≤ b3 ∧ b3 < 0xC0) then
      (utf8Decode r).map
        (fun cs =>
          ((b - 0xF0) * 262144 + (b1 - 0x80) * 4096 + (b2 - 0x80) * 64 + (b3 - 0x80)) :: cs)
    else none
termination_by structural l => l

end

/-- Re-encoding a successfully decoded byte string reproduces it:
`data.decode('utf-8').encode('UTF-8') == data`. -/
theorem utf8Encode_utf8Decode :
    ∀ n (b : List Nat), b.length ≤ n → ∀ cs, utf8Decode b = some cs → utf8Encode cs = b := by
  intro n
  induction n with
  | zero =>
    intro b hb cs h
    match b with
    | [] =>
      simp only [utf8Decode, Option.some.injEq] at h
      subst h
      rfl
  | succ n ih =>
    intro b hb cs h
    match b with
    | [] =>
      simp only [utf8Decode, Option.some.injEq] at h
      subst h
      rfl
    | b0 :: rest =>
      rw [utf8Decode] at h
      by_cases h1 : b0 < 0x80
      · rw [if_pos h1, Option.map_eq_some'] at h
        obtain ⟨cs0, hd, hcs⟩ := h
        subst hcs
        have hrest : utf8Encode cs0 = rest :=
          ih rest (by simp at hb; omega) cs0 hd
        simp [utf8Encode, utf8EncodeChar, h1] at hrest ⊢
        exact hrest
      · rw [if_neg h1] at h
        by_cases h2 : b0 < 0xC2
        · rw [if_pos h2] at h; exact absurd h (by simp)
        · rw [if_neg h2] at h
          by_cases h3 : b0 < 0xE0
          · rw [if_pos h3] at h
            match rest with
            | [] => rw [utf8DecodeTwo] at h; exact absurd h (by simp)
            | b1 :: r =>
              rw [utf8DecodeTwo] at h
              by_cases hc : 0x80 ≤ b1 ∧ b1 < 0xC0
              · rw [if_pos hc, Option.map_eq_some'] at h
                obtain ⟨cs0, hd, hcs⟩ := h
                subst hcs
                have hrest : utf8Encode cs0 = r :=
                  ih r (by simp at hb; omega) cs0 hd
                simp only [utf8Encode, List.map_cons, List.flatten_cons] at hrest ⊢
                rw [hrest, utf8EncodeChar]
                rw [if_neg (by omega), if_pos (by omega)]
                have e1 : ((b0 - 0xC0) * 64 + (b1 - 0x80)) / 64 = b0 - 0xC0 := by omega
                have e2 : ((b0 - 0xC0) * 64 + (b1 - 0x80)) % 64 = b1 - 0x80 := by omega
                rw [e1, e2]
                have e3 : 0xC0 + (b0 - 0xC0) = b0 := by omega
                have e4 : 0x80 + (b1 - 0x80) = b1 := by omega
                rw [e3, e4]
                simp
              · rw [if_neg hc] at h; exact absurd h (by simp)
          · rw [if_neg h3] at h
            by_cases h4 : b0 < 0xF0
            · rw [if_pos h4] at h
              match rest with
              | [] => rw [utf8DecodeThree] at h; exact absurd h (by simp)
              | [b1] => rw [utf8DecodeThree] at h; exact absurd h (by simp)
              | b1 :: b2 :: r =>
                rw [utf8DecodeThree] at h
                by_cases hc :
                    (if b0 = 0xE0 then 0xA0 ≤ b1 ∧ b1 < 0xC0
                     else if b0 = 0xED then 0x80 ≤ b1 ∧ b1 < 0xA0
                     else 0x80 ≤ b1 ∧ b1 < 0xC0) ∧ 0x80 ≤ b2 ∧ b2 < 0xC0
                · rw [if_pos hc, Option.map_eq_some'] at h
                  obtain ⟨cs0, hd, hcs⟩ := h
                  subst hcs
                  have hrest : utf8Encode cs0 = r :=
                    ih r (by simp at hb; omega) cs0 hd
                  have hb1 : 0x80 ≤ b1 ∧ b1 < 0xC0 := by
                    obtain ⟨hcl, _⟩ := hc
                    by_cases he0 : b0 = 0xE0
                    · rw [if_pos he0] at hcl; omega
                    · rw [if_neg he0] at hcl
                      by_cases hed : b0 = 0xED
                      · rw [if_pos hed] at hcl; omega
                      · rw [if_neg hed] at hcl; omega
                  have hlow : 0x800 ≤ (b0 - 0xE0) * 4096 + (b1 - 0x80) * 64 + (b2 - 0x80) := by
                    obtain ⟨hcl, _⟩ := hc
                    by_cases he0 : b0 = 0xE0
                    · rw [if_pos he0] at hcl; subst he0; omega
                    · omega
                  simp only [utf8Encode, List.map_cons, List.flatten_cons] at hrest ⊢
                  rw [hrest, utf8EncodeChar]
                  rw [if_neg (by omega), if_neg (by omega), if_pos (by omega)]
                  obtain ⟨_, hb2⟩ := hc
                  have e1 : ((b0 - 0xE0) * 4096 + (b1 - 0x80) * 64 + (b2 - 0x80)) / 4096
                      = b0 - 0xE0 := by omega
                  have e2 : (((b0 - 0xE0) * 4096 + (b1 - 0x80) * 64 + (b2 - 0x80)) / 64) % 64
                      = b1 - 0x80 := by omega
                  have e3 : ((b0 - 0xE0) * 4096 + (b1 - 0x80) * 64 + (b2 - 0x80)) % 64
                      = b2 - 0x80 := by omega
                  rw [e1, e2, e3]
                  have e4 : 0xE0 + (b0 - 0xE0) = b0 := by omega
                  have e5 : 0x80 + (b1 - 0x80) = b1 := by omega
                  have e6 : 0x80 + (b2 - 0x80) = b2 := by omega
                  rw [e4, e5, e6]
                  simp
                · rw [if_neg hc] at h; exact absurd h (by simp)
            · rw [if_neg h4] at h
              by_cases h5 : b0 < 0xF5
              · rw [if_pos h5] at h
                match rest with
                | [] => rw [utf8DecodeFour] at h; exact absurd h (by simp)
                | [b1] => rw [utf8DecodeFour] at h; exact absurd h (by simp)
                | [b1, b2] => rw [utf8DecodeFour] at h; exact absurd h (by simp)
                | b1 :: b2 :: b3 :: r =>
                  rw [utf8DecodeFour] at h
                  by_cases hc :
                      (if b0 = 0xF0 then 0x90 ≤ b1 ∧ b1 < 0xC0
                       else if b0 = 0xF4 then 0x80 ≤ b1 ∧ b1 < 0x90
                       else 0x80 ≤ b1 ∧ b1 < 0xC0) ∧
                      (0x80 ≤ b2 ∧ b2 < 0xC0) ∧ (0x80 ≤ b3 ∧ b3 < 0xC0)
                  · rw [if_pos hc, Option.map_eq_some'] at h
                    obtain ⟨cs0, hd, hcs⟩ := h
                    subst hcs
                    have hrest : utf8Encode cs0 = r :=
                      ih r (by simp at hb; omega) cs0 hd
                    have hb1 : 0x80 ≤ b1 ∧ b1 < 0xC0 := by
                      obtain ⟨hcl, _⟩ := hc
                      by_cases hf0 : b0 = 0xF0
                      · rw [if_pos hf0] at hcl; omega
                      · rw [if_neg hf0] at hcl
                        by_cases hf4 : b0 = 0xF4
                        · rw [if_pos hf4] at hcl; omega
                        · rw [if_neg hf4] at hcl; omega
                    have hlow : 0x10000 ≤
                        (b0 - 0xF0) * 262144 + (b1 - 0x80) * 4096 + (b2 - 0x80) * 64 + (b3 - 0x80) := by
                      obtain ⟨hcl, _⟩ := hc
                      by_cases hf0 : b0 = 0xF0
                      · rw [if_pos hf0] at hcl; subst hf0; omega
                      · omega
                    simp only [utf8Encode, List.map_cons, List.flatten_cons] at hrest ⊢
                    rw [hrest, utf8EncodeChar]
                    rw [if_neg (by omega), if_neg (by omega), if_neg (by omega)]
                    obtain ⟨_, hb2, hb3⟩ := hc
                    have e1 : ((b0 - 0xF0) * 262144 + (b1 - 0x80) * 4096 + (b2 - 0x80) * 64 + (b3 - 0x80))
                        / 262144 = b0 - 0xF0 := by omega
                    have e2 : (((b0 - 0xF0) * 262144 + (b1 - 0x80) * 4096 + (b2 - 0x80) * 64 + (b3 - 0x80))
                        / 4096) % 64 = b1 - 0x80 := by omega
                    have e3 : (((b0 - 0xF0) * 262144 + (b1 - 0x80) * 4096 + (b2 - 0x80) * 64 + (b3 - 0x80))
                        / 64) % 64 = b2 - 0x80 := by omega
                    have e4 : ((b0 - 0xF0) * 262144 + (b1 - 0x80) * 4096 + (b2 - 0x80) * 64 + (b3 - 0x80))
                        % 64 = b3 - 0x80 := by omega
                    rw [e1, e2, e3, e4]
                    have e5 : 0xF0 + (b0 - 0xF0) = b0 := by omega
                    have e6 : 0x80 + (b1 - 0x80) = b1 := by omega
                    have e7 : 0x80 + (b2 - 0x80) = b2 := by omega
                    have e8 : 0x80 + (b3 - 0x80) = b3 := by omega
                    rw [e5, e6, e7, e8]
                    simp
                  · rw [if_neg hc] at h; exact absurd h (by simp)
              · rw [if_neg h5] at h; exact absurd h (by simp)

/-- Round-trip form used throughout: a decodable byte string re-encodes to itself. -/
theorem utf8_roundtrip {b cs : List Nat} (h : utf8Decode b = some cs) :
    utf8Encode cs = b :=
  utf8Encode_utf8Decode b.length b (Nat.le_refl _) cs h

/-! ### Inbound frame parsing (`read_next_message`, lines 183-235)

The connection's inbound byte stream is a `List Nat`.  `read_next_message`
reads one frame from its front.  Outcomes mirror the source's control flow:
`closed` means `self.keep_alive = 0` was set and the function returned
without delivering anything (close opcode, unmasked frame, unknown opcode,
or a header shorter than two bytes, which Python turns into `b1, b2 = 0, 0`);
`err` means an uncaught exception at one of the later reads (`struct.unpack`
on a truncated length field, or `masks[...]` out of range); `deliver` means
`opcode_handler(self, message_bytes, fin)` was invoked with the unmasked
payload and the raw `fin` bit (`b1 & FIN`, so `0` or `0x80`), with `rest`
the bytes left in the stream. -/

/-- Which `self.server._*_received_` handler the `if/elif` chain of
`read_next_message` selects for an opcode; `none` for the unknown-opcode
branch (which sets `keep_alive = 0`). -/
inductive HKind where
  | text
  | binary
  | continuation
  | ping
  | pong
deriving DecidableEq, Repr

inductive ReadOutcome where
  | closed
  | err
  | deliver (k : HKind) (payload : List Nat) (fin : Nat) (rest : List Nat)
deriving DecidableEq, Repr

def opcode_to_handler (opcode : Nat) : Option HKind :=
  if opcode = OPCODE_CONTINUATION then some .continuation
  else if opcode = OPCODE_BINARY then some .binary
  else if opcode = OPCODE_TEXT then some .text
  else if opcode = OPCODE_PING then some .ping
  else if opcode = OPCODE_PONG then some .pong
  else none

/-- `struct.unpack(">H", self.rfile.read(2))`: big-endian 16-bit extended
length; `none` when the stream is too short (`struct.error`). -/
def readExt16 : List Nat → Option (Nat × List Nat)
  | l0 :: l1 :: r => some (l0 * 256 + l1, r)
  | _ => none

/-- `struct.unpack(">Q", self.rfile.read(8))`: big-endian 64-bit extended
length; `none` when the stream is too short (`struct.error`). -/
def readExt64 : List Nat → Option (Nat × List Nat)
  | l0 :: l1 :: l2 :: l3 :: l4 :: l5 :: l6 :: l7 :: r =>
    some (((((((l0 * 256 + l1) * 256 + l2) * 256 + l3) * 256 + l4) * 256 + l5)
      * 256 + l6) * 256 + l7, r)
  | _ => none

/-- The extended-payload-length step: 126 selects the 16-bit field, 127 the
64-bit field, anything else is the literal 7-bit length. -/
def read_payload_length (payload_length : Nat) (rest : List Nat) :
    Option (Nat × List Nat) :=
  if payload_length = 126 then readExt16 rest
  else if payload_length = 127 then readExt64 rest
  else some (payload_length, rest)

/-- The unmasking loop: `message_byte ^= masks[len(message_bytes) % 4]`,
where the second argument is the bytes still to process and the third the
number of bytes already appended to `message_bytes`. -/
def unmask (masks : List Nat) : List Nat → Nat → List Nat
  | [], _ => []
  | b :: bs, i => (b ^^^ masks.getD (i % 4) 0) :: unmask masks bs (i + 1)

/-- Body of `read_next_message` after the two header bytes were obtained
(`b1, b2 = 0, 0` when the initial 2-byte read failed). -/
def read_frame (b1 b2 : Nat) (rest : List Nat) : ReadOutcome :=
  let fin := b1 &&& FIN
  let opcode := b1 &&& OPCODE
  let masked := b2 &&& MASKED
  let payload_length := b2 &&& PAYLOAD_LEN
  if opcode = OPCODE_CLOSE_CONN then .closed
  else if masked = 0 then .closed
  else
    match opcode_to_handler opcode with
    | none => .closed
    | some k =>
      match read_payload_length payload_length rest with
      | none => .err
      | some (plen, r2) =>
        let masks := r2.take 4
        let raw := (r2.drop 4).take plen
        if raw.length ≠ 0 ∧ masks.length < min 4 raw.length then .err
        else .deliver k (unmask masks raw 0) fin ((r2.drop 4).drop plen)

def read_next_message (input : List Nat) : ReadOutcome :=
  match input with
  | b1 :: b2 :: rest => read_frame b1 b2 rest
  | _ => read_frame 0 0 []

/-! Small facts about the parser's bit arithmetic and the mask loop. -/

theorem and_high_of_add (l : Nat) (h : l < 128) : (128 + l) &&& 128 = 128 := by
  revert l h
  decide

theorem and_low_of_add (l : Nat) (h : l < 128) : (128 + l) &&& 127 = l := by
  revert l h
  decide

theorem unmask_length (masks : List Nat) :
    ∀ (bs : List Nat) (i : Nat), (unmask masks bs i).length = bs.length := by
  intro bs
  induction bs with
  | nil => intro i; rfl
  | cons b bs ih => intro i; simp [unmask, ih]

/-- Masking is an involution: unmasking twice with the same key gives the
original bytes back. -/
theorem unmask_unmask (masks : List Nat) :
    ∀ (bs : List Nat) (i : Nat), unmask masks (unmask masks bs i) i = bs := by
  intro bs
  induction bs with
  | nil => intro i; rfl
  | cons b bs ih =>
    intro i
    simp only [unmask, ih]
    rw [Nat.xor_cancel_right]

/-- C6.  An inbound frame whose mask bit is clear (and whose opcode is not
close) makes `read_next_message` set `keep_alive = 0` and return before the
payload is read: no opcode handler (and hence no application callback) is
invoked and nothing is unmasked or delivered. -/
theorem unmasked_frame_closes_without_callback (b1 b2 : Nat) (rest : List Nat)
    (hop : b1 &&& OPCODE ≠ OPCODE_CLOSE_CONN) (hmask : b2 &&& MASKED = 0) :
    read_next_message (b1 :: b2 :: rest) = ReadOutcome.closed := by
  rw [read_next_message, read_frame]
  rw [if_neg hop, if_pos hmask]

/-- Witness for C6 at a concrete unmasked text frame. -/
theorem unmasked_frame_closes_without_callback_witness :
    read_next_message [0x81, 0x05, 104, 101, 108, 108, 111] = ReadOutcome.closed :=
  unmasked_frame_closes_without_callback 0x81 0x05 [104, 101, 108, 108, 111]
    (by decide) (by decide)

/-! ### Outbound send paths (`send_text` lines 243-286, `continue_send_text`
lines 288-330, `send_binary` lines 332-362, `continue_send_binary` lines
364-394)

Python's `send_text` returns `False` from the validation branches and falls
off the end (returning `None`) otherwise; we record which happened.  The
first component collects the `self.request.send(...)` calls in order. -/

inductive PyRet where
  | retNone
  | retFalse
deriving DecidableEq, Repr

/-- `continue_send_text(message, opcode=OPCODE_CONTINUATION)` on a `bytes`
argument: validate as UTF-8 (`try_decode_UTF8`; an empty decode is falsy and
also returns `False`), re-encode, then either send one `FIN | opcode` frame
(payload ≤ 125 bytes) or send a `0x00 | opcode` frame with the first 125
bytes and recurse on the remainder with the default continuation opcode.
The source's commented-out extended-length branches are elided. -/
def continue_send_text (message : List Nat) (opcode : Nat) : List (List Nat) × PyRet :=
  match hdec : utf8Decode message with
  | none => ([], .retFalse)
  | some s =>
    if s = [] then ([], .retFalse)
    else
      let payload := utf8Encode s
      if hlen : payload.length ≤ 125 then
        ([[FIN ||| opcode, payload.length] ++ payload], .retNone)
      else
        (([0x00 ||| opcode, 125] ++ payload.take 125) ::
          (continue_send_text (payload.drop 125) OPCODE_CONTINUATION).1, .retNone)
termination_by message.length
decreasing_by
  simp only [List.length_drop]
  have hmsg : utf8Encode s = message := utf8_roundtrip hdec
  have hlen2 : ¬ (utf8Encode s).length ≤ 125 := hlen
  rw [hmsg] at hlen2 ⊢
  omega

/-- The framing half of `send_text`, after validation produced the `str`
value `message` (Unicode scalar values): `payload = encode_to_UTF8(message)`,
one `FIN | opcode` frame for ≤ 125 bytes, otherwise a `0x00 | opcode` frame
with the first 125 bytes followed by `continue_send_text(payload[125:])`. -/
def send_text_framing (message : List Nat) (opcode : Nat) : List (List Nat) × PyRet :=
  let payload := utf8Encode message
  if payload.length ≤ 125 then
    ([[FIN ||| opcode, payload.length] ++ payload], .retNone)
  else
    (([0x00 ||| opcode, 125] ++ payload.take 125) ::
      (continue_send_text (payload.drop 125) OPCODE_CONTINUATION).1, .retNone)

/-- `send_text(message, opcode=OPCODE_TEXT)` on a `bytes` argument: the
`isinstance(message, bytes)` branch decodes it (`try_decode_UTF8`), and both
a failed decode and an empty string are falsy, returning `False`. -/
def send_text (message : List Nat) (opcode : Nat) : List (List Nat) × PyRet :=
  match utf8Decode message with
  | none => ([], .retFalse)
  | some s => if s = [] then ([], .retFalse) else send_text_framing s opcode

/-- `send_text(message, opcode=OPCODE_TEXT)` on a `str` argument: the
`isinstance(message, str)` branch performs no validation at all. -/
def send_text_str (message : List Nat) (opcode : Nat) : List (List Nat) × PyRet :=
  send_text_framing message opcode

/-- `send_text` when the argument is a `bytearray`: in Python,
`bytearray` is a subclass of neither `bytes` nor `str`, so both
`isinstance` checks fail and the function takes its final else branch —
log a warning that the message has to be a string or bytes and
`return False` — sending nothing, whatever the payload. -/
def send_text_bytearray (_message : List Nat) (_opcode : Nat) :
    List (List Nat) × PyRet :=
  ([], PyRet.retFalse)

/-- `send_pong(message)` (lines 240-241): `self.send_text(message,
OPCODE_PONG)`.  Its only call site (`_ping_received_`) passes the inbound
payload, a `bytearray`, so the call lands in `send_text`'s type-error
branch and returns `False` without sending. -/
def send_pong (message : List Nat) : List (List Nat) × PyRet :=
  send_text_bytearray message OPCODE_PONG

/-- `send_binary(message, opcode=OPCODE_BINARY)` (lines 332-362): no
validation; payloads of fewer than 125 bytes get a single `FIN | opcode`
frame; anything else gets only a `0x00 | opcode` frame with the first 125
bytes — the source's `self.continue_send_binary(payload[125:])` call is
commented out, so the remainder is never sent. -/
def send_binary (message : List Nat) (opcode : Nat) : List (List Nat) :=
  let payload := message
  if payload.length < 125 then
    [[FIN ||| opcode, payload.length] ++ payload]
  else
    [[0x00 ||| opcode, 125] ++ payload.take 125]

/-- `continue_send_binary(message, opcode=OPCODE_CONTINUATION)` (lines
364-394): same shape as `send_binary` (its recursive continuation call is
also commented out). -/
def continue_send_binary (message : List Nat) (opcode : Nat) : List (List Nat) :=
  let payload := message
  if payload.length < 125 then
    [[FIN ||| opcode, payload.length] ++ payload]
  else
    [[0x00 ||| opcode, 125] ++ payload.take 125]

/-- Non-dependent unfolding equation for `continue_send_text`. -/
theorem continue_send_text_eq (m : List Nat) (opc : Nat) :
    continue_send_text m opc =
      match utf8Decode m with
      | none => ([], PyRet.retFalse)
      | some s =>
        if s = [] then ([], PyRet.retFalse)
        else
          if (utf8Encode s).length ≤ 125 then
            ([[FIN ||| opc, (utf8Encode s).length] ++ utf8Encode s], PyRet.retNone)
          else
            (([0x00 ||| opc, 125] ++ (utf8Encode s).take 125) ::
              (continue_send_text ((utf8Encode s).drop 125) OPCODE_CONTINUATION).1,
              PyRet.retNone) := by
  conv_lhs => rw [continue_send_text.eq_def]
  cases hm : utf8Decode m with
  | none => rfl
  | some s =>
    by_cases hs : s = []
    · simp only [if_pos hs]
    · simp only [if_neg hs]
      by_cases hlen : (utf8Encode s).length ≤ 125
      · simp only [dif_pos hlen, if_pos hlen]
      · simp only [dif_neg hlen, if_neg hlen]

/-- `continue_send_text` on a byte string whose decode is known. -/
theorem continue_send_text_some (m : List Nat) (opc : Nat) (s : List Nat)
    (h : utf8Decode m = some s) :
    continue_send_text m opc =
      if s = [] then ([], PyRet.retFalse)
      else if (utf8Encode s).length ≤ 125 then
        ([[FIN ||| opc, (utf8Encode s).length] ++ utf8Encode s], PyRet.retNone)
      else
        (([0x00 ||| opc, 125] ++ (utf8Encode s).take 125) ::
          (continue_send_text ((utf8Encode s).drop 125) OPCODE_CONTINUATION).1,
          PyRet.retNone) := by
  rw [continue_send_text_eq, h]

/-- `send_text` on a byte string whose decode is known. -/
theorem send_text_some_eq (m : List Nat) (opc : Nat) (s : List Nat)
    (h : utf8Decode m = some s) :
    send_text m opc = if s = [] then ([], PyRet.retFalse)
      else send_text_framing s opc := by
  rw [send_text, h]

/-! ### The chunked-send wire layout -/

/-- The layout the specification claims for the continuation frames of a
chunked send: continuation-opcode frames of at most 125 bytes covering the
remaining payload in order, the last one with `fin=1`.  Stated from the
spec's words (§4.1), for comparison with `continue_send_text`. -/
def specContinuationChunks (r : List Nat) : List (List Nat) :=
  if h : r.length ≤ 125 then [[0x80, r.length] ++ r]
  else ([0x00, 125] ++ r.take 125) :: specContinuationChunks (r.drop 125)
termination_by r.length
decreasing_by simp only [List.length_drop]; omega

/-- Non-dependent unfolding equation for `specContinuationChunks`. -/
theorem specContinuationChunks_eq (r : List Nat) :
    specContinuationChunks r =
      if r.length ≤ 125 then [[0x80, r.length] ++ r]
      else ([0x00, 125] ++ r.take 125) :: specContinuationChunks (r.drop 125) := by
  conv_lhs => rw [specContinuationChunks.eq_def]
  by_cases h : r.length ≤ 125
  · simp only [dif_pos h, if_pos h]
  · simp only [dif_neg h, if_neg h]

/-- `continue_send_text`, called with the default continuation opcode on a
nonempty byte string all of whose 125-byte-aligned suffixes are valid UTF-8,
emits exactly the claimed continuation chunks and returns `None`. -/
theorem continue_send_text_chunks :
    ∀ n (m : List Nat), m.length ≤ n → m ≠ [] →
      (∀ k, k < m.length → (utf8Decode (m.drop (125 * k))).isSome) →
      continue_send_text m OPCODE_CONTINUATION
        = (specContinuationChunks m, PyRet.retNone) := by
  intro n
  induction n with
  | zero =>
    intro m hm hne _
    cases m with
    | nil => exact absurd rfl hne
    | cons a l => simp at hm
  | succ n ih =>
    intro m hm hne hval
    have hpos : 0 < m.length := by
      cases m with
      | nil => exact absurd rfl hne
      | cons a l => simp
    have h0 : (utf8Decode (m.drop (125 * 0))).isSome := hval 0 hpos
    rw [Nat.mul_zero, List.drop_zero] at h0
    obtain ⟨s, hs⟩ := Option.isSome_iff_exists.mp h0
    have hms : utf8Encode s = m := utf8_roundtrip hs
    have hsne : s ≠ [] := by
      intro hnil
      subst hnil
      simp [utf8Encode] at hms
      subst hms
      exact hne rfl
    rw [continue_send_text_some m OPCODE_CONTINUATION s hs, if_neg hsne, hms]
    have hfin0 : FIN ||| OPCODE_CONTINUATION = 0x80 := by decide
    have hcont0 : 0x00 ||| OPCODE_CONTINUATION = 0x00 := by decide
    by_cases hlen : m.length ≤ 125
    · rw [if_pos hlen, specContinuationChunks_eq, if_pos hlen, hfin0]
    · rw [if_neg hlen]
      have hdropne : m.drop 125 ≠ [] := by
        intro hnil
        have := congrArg List.length hnil
        simp at this
        omega
      have hdropval : ∀ k, k < (m.drop 125).length →
          (utf8Decode ((m.drop 125).drop (125 * k))).isSome := by
        intro k hk
        rw [List.drop_drop]
        have hk2 : k + 1 < m.length := by
          simp [List.length_drop] at hk
          omega
        have := hval (k + 1) hk2
        have harith : 125 * (k + 1) = 125 + 125 * k := by ring
        rw [harith] at this
        exact this
      have hrec := ih (m.drop 125) (by simp [List.length_drop] at hm ⊢; omega)
        hdropne hdropval
      rw [hrec]
      conv_rhs => rw [specContinuationChunks_eq]
      rw [if_neg hlen, hcont0]

set_option maxRecDepth 4000 in
/-- C2 counterexample.  A 126-byte binary payload sent through
`send_binary`: the only bytes put on the wire are a single frame whose fin
bit is clear and which carries just the first 125 bytes — no continuation
frame and no `fin=1` frame is ever emitted, contrary to the claim that the
chunked layout applies to the binary encode path as well. -/
theorem chunked_send_binary_counterexample :
    send_binary (List.replicate 126 7) OPCODE_BINARY
      = [[0x02, 125] ++ List.replicate 125 7] ∧
    ∀ f ∈ send_binary (List.replicate 126 7) OPCODE_BINARY,
      f.headD 0 &&& FIN = 0 := by
  refine ⟨by decide, by decide⟩

/-- C2 (amended).  For payloads over 125 bytes, the *text* send path emits
the claimed chunked layout — a leading `fin=0` frame with the requested
opcode and the first 125 bytes, then continuation frames of at most 125
bytes, the last with `fin=1` — provided every 125-byte-aligned suffix of the
payload is valid UTF-8 (the continuation step re-validates each suffix).
The *binary* send path instead emits only the leading `fin=0` frame with the
first 125 bytes and silently discards the remainder. -/
theorem chunked_send_amended :
    (∀ m : List Nat, 125 < m.length →
      (∀ k, k < m.length → (utf8Decode (m.drop (125 * k))).isSome) →
      send_text m OPCODE_TEXT
        = (([0x01, 125] ++ m.take 125) :: specContinuationChunks (m.drop 125),
            PyRet.retNone)) ∧
    (∀ m : List Nat, 125 ≤ m.length →
      send_binary m OPCODE_BINARY = [[0x02, 125] ++ m.take 125]) := by
  constructor
  · intro m hlong hval
    have hpos : 0 < m.length := by omega
    have h0 : (utf8Decode (m.drop (125 * 0))).isSome := hval 0 hpos
    rw [Nat.mul_zero, List.drop_zero] at h0
    obtain ⟨s, hs⟩ := Option.isSome_iff_exists.mp h0
    have hms : utf8Encode s = m := utf8_roundtrip hs
    have hsne : s ≠ [] := by
      intro hnil
      subst hnil
      simp [utf8Encode] at hms
      subst hms
      simp at hlong
    rw [send_text_some_eq m OPCODE_TEXT s hs, if_neg hsne]
    simp only [send_text_framing, hms]
    rw [if_neg (by omega)]
    have hdropne : m.drop 125 ≠ [] := by
      intro hnil
      have := congrArg List.length hnil
      simp at this
      omega
    have hdropval : ∀ k, k < (m.drop 125).length →
        (utf8Decode ((m.drop 125).drop (125 * k))).isSome := by
      intro k hk
      rw [List.drop_drop]
      have hk2 : k + 1 < m.length := by
        simp [List.length_drop] at hk
        omega
      have := hval (k + 1) hk2
      have harith : 125 * (k + 1) = 125 + 125 * k := by ring
      rw [harith] at this
      exact this
    rw [continue_send_text_chunks (m.drop 125).length (m.drop 125)
      (Nat.le_refl _) hdropne hdropval]
    have hlead : 0x00 ||| OPCODE_TEXT = 0x01 := by decide
    rw [hlead]
  · intro m hge
    simp only [send_binary]
    rw [if_neg (by omega)]
    have hlead : 0x00 ||| OPCODE_BINARY = 0x02 := by decide
    rw [hlead]

set_option maxRecDepth 8000 in
/-- Witness for C2 (amended): a 300-byte ASCII text payload produces the
`fin=0,len=125` / `fin=0,len=125` / `fin=1,len=50` sequence from the spec's
§8 example, and a 300-byte binary payload produces only the leading frame. -/
theorem chunked_send_amended_witness :
    send_text (List.replicate 300 97) OPCODE_TEXT
      = (([0x01, 125] ++ List.replicate 125 97) ::
          ([0x00, 125] ++ List.replicate 125 97) ::
          [[0x80, 50] ++ List.replicate 50 97], PyRet.retNone) ∧
    send_binary (List.replicate 300 97) OPCODE_BINARY
      = [[0x02, 125] ++ List.replicate 125 97] := by
  constructor
  · rw [chunked_send_amended.1 (List.replicate 300 97) (by simp)
      (by decide)]
    simp [specContinuationChunks_eq, List.take_replicate, List.drop_replicate]
  · rw [chunked_send_amended.2 (List.replicate 300 97) (by simp)]
    simp [List.take_replicate]

/-- C7.  Sending a byte string that is not valid UTF-8 through the text send
path fails locally: it returns `False` and performs no `send` call at all,
for any requested opcode (so also when the payload is long enough that the
chunked path would otherwise engage — validation precedes all framing). -/
theorem send_text_invalid_utf8 (message : List Nat) (opcode : Nat)
    (h : utf8Decode message = none) :
    send_text message opcode = ([], PyRet.retFalse) := by
  rw [send_text, h]

set_option maxRecDepth 4000 in
/-- Witness for C7: a lone `0xFF` byte (invalid UTF-8) and a 200-byte
invalid payload that would otherwise chunk; neither transmits anything. -/
theorem send_text_invalid_utf8_witness :
    send_text [0xFF] OPCODE_TEXT = ([], PyRet.retFalse) ∧
    send_text (List.replicate 200 0xFF) OPCODE_TEXT = ([], PyRet.retFalse) := by
  constructor
  · exact send_text_invalid_utf8 [0xFF] OPCODE_TEXT (by decide)
  · exact send_text_invalid_utf8 (List.replicate 200 0xFF) OPCODE_TEXT (by decide)

/-- C10.  The binary send path takes the chunked branch exactly when the
payload has 125 bytes or more (`payload_length < 125` is strict): a 125-byte
payload yields one `fin=0` frame declaring length 125 with the full payload
and no terminating `fin=1` frame ever follows, while payloads strictly
shorter than 125 bytes get the single `fin=1` frame. -/
theorem send_binary_boundary :
    (∀ m : List Nat, m.length = 125 →
      send_binary m OPCODE_BINARY = [[0x02, 125] ++ m] ∧
      ∀ f ∈ send_binary m OPCODE_BINARY, f.headD 0 &&& FIN = 0) ∧
    (∀ m : List Nat, m.length < 125 →
      send_binary m OPCODE_BINARY = [[0x82, m.length] ++ m]) := by
  constructor
  · intro m h125
    have heq : send_binary m OPCODE_BINARY = [[0x02, 125] ++ m] := by
      simp only [send_binary]
      rw [if_neg (by omega)]
      have hlead : 0x00 ||| OPCODE_BINARY = 0x02 := by decide
      rw [hlead, List.take_of_length_le (by omega)]
    refine ⟨heq, ?_⟩
    intro f hf
    rw [heq] at hf
    simp at hf
    subst hf
    exact (by decide : (2 : Nat) &&& FIN = 0)
  · intro m hlt
    simp only [send_binary]
    rw [if_pos hlt]
    have hlead : FIN ||| OPCODE_BINARY = 0x82 := by decide
    rw [hlead]

set_option maxRecDepth 4000 in
/-- Witness for C10 at a 125-byte payload and a 5-byte payload. -/
theorem send_binary_boundary_witness :
    (send_binary (List.replicate 125 3) OPCODE_BINARY
        = [[0x02, 125] ++ List.replicate 125 3] ∧
      ∀ f ∈ send_binary (List.replicate 125 3) OPCODE_BINARY,
        f.headD 0 &&& FIN = 0) ∧
    send_binary [9, 9, 9, 9, 9] OPCODE_BINARY = [[0x82, 5, 9, 9, 9, 9, 9]] := by
  constructor
  · exact send_binary_boundary.1 (List.replicate 125 3) (by simp)
  · rw [send_binary_boundary.2 [9, 9, 9, 9, 9] (by simp)]
    rfl

/-! ### Client-side masking and the parse of a masked short frame -/

/-- Modelled from the spec (glossary entry "Masking"; §4.1 `Unmask`): the
client-side masking applied to a frame before it reaches the server, which
the repository itself never implements (only its unmasking direction exists
in `read_next_message`).  For a short frame `b1 :: len :: payload`
(`len ≤ 125 < 0x80`), the mask bit is set by adding `0x80` to the second
header byte, the 4-byte key is inserted, and the payload is XOR-masked with
the same loop the parser uses to unmask. -/
def maskFrame (key : List Nat) : List Nat → List Nat
  | [] => []
  | [b1] => [b1]
  | b1 :: b2 :: payload => b1 :: (0x80 + b2) :: (key ++ unmask key payload 0)

/-- Parsing a client-masked short frame delivers the original payload to the
handler selected by the opcode, with the frame's raw fin bit. -/
theorem read_maskFrame (b1 : Nat) (key payload : List Nat) (k : HKind)
    (hkey : key.length = 4) (hlen : payload.length ≤ 125)
    (hop : b1 &&& 0x0f ≠ 0x8)
    (hk : opcode_to_handler (b1 &&& 0x0f) = some k) :
    read_next_message (maskFrame key (b1 :: payload.length :: payload))
      = ReadOutcome.deliver k payload (b1 &&& 0x80) [] := by
  have hlen128 : payload.length < 128 := by omega
  have hu_len : (unmask key payload 0).length = payload.length :=
    unmask_length key payload 0
  have hpl : read_payload_length ((0x80 + payload.length) &&& PAYLOAD_LEN)
      (key ++ unmask key payload 0)
      = some (payload.length, key ++ unmask key payload 0) := by
    rw [PAYLOAD_LEN]
    rw [and_low_of_add payload.length hlen128, read_payload_length]
    rw [if_neg (by omega), if_neg (by omega)]
  have htake : (key ++ unmask key payload 0).take 4 = key := List.take_left' hkey
  have hdrop : (key ++ unmask key payload 0).drop 4 = unmask key payload 0 :=
    List.drop_left' hkey
  have hraw : (unmask key payload 0).take payload.length = unmask key payload 0 :=
    List.take_of_length_le (by rw [hu_len])
  have hrest : (unmask key payload 0).drop payload.length = [] :=
    List.drop_of_length_le (by rw [hu_len])
  rw [maskFrame, read_next_message, read_frame]
  simp only [FIN, OPCODE, MASKED, OPCODE_CLOSE_CONN]
  rw [if_neg hop]
  rw [and_high_of_add payload.length hlen128]
  rw [if_neg (by decide : ¬ (128 : Nat) = 0)]
  simp only [hk, hpl, htake, hdrop, hraw, hrest, hu_len, hkey]
  rw [if_neg (by omega)]
  rw [unmask_unmask]

set_option maxRecDepth 4000 in
/-- C4 counterexample.  The bytes the encode path emits for a 126-byte
binary payload, fed to the repository's own inbound parser, recover
nothing: the emitted frame is unmasked (server frames carry no mask key),
so `read_next_message` closes the connection instead of delivering fin,
opcode, or payload — and only the first 125 payload bytes were emitted in
the first place. -/
theorem decode_encode_counterexample :
    read_next_message ((send_binary (List.replicate 126 97) OPCODE_BINARY).flatten)
      = ReadOutcome.closed := by
  decide

/-- C4 (amended).  The inbound parser accepts only masked frames, so the
round-trip holds only after client-masking the emitted frame, and only for
payloads that take the single-frame branch: binary payloads of fewer than
125 bytes, text payloads of 1-125 bytes (bytes input, valid UTF-8), and
text payloads of 0-125 bytes via the `str` input path.  The parser then
recovers `fin=1` (raw bit `0x80`), the opcode's handler, and the payload
exactly.  For binary payloads of 125 bytes or more and any payload over 125
bytes the encoder chunks or truncates, so the identity fails (see the
counterexample). -/
theorem decode_encode_amended :
    (∀ (m key : List Nat), key.length = 4 → m.length < 125 →
      read_next_message (maskFrame key ((send_binary m OPCODE_BINARY).flatten))
        = ReadOutcome.deliver HKind.binary m 0x80 []) ∧
    (∀ (m s key : List Nat), key.length = 4 → utf8Decode m = some s → s ≠ [] →
      m.length ≤ 125 →
      read_next_message (maskFrame key ((send_text m OPCODE_TEXT).1.flatten))
        = ReadOutcome.deliver HKind.text m 0x80 []) ∧
    (∀ (s key : List Nat), key.length = 4 → (utf8Encode s).length ≤ 125 →
      read_next_message (maskFrame key ((send_text_str s OPCODE_TEXT).1.flatten))
        = ReadOutcome.deliver HKind.text (utf8Encode s) 0x80 []) := by
  refine ⟨?_, ?_, ?_⟩
  · intro m key hkey hlen
    simp only [send_binary]
    rw [if_pos hlen]
    simp only [List.flatten, List.append_nil]
    have hfrm : [FIN ||| OPCODE_BINARY, m.length] ++ m
        = (0x82 : Nat) :: m.length :: m := by
      have : FIN ||| OPCODE_BINARY = 0x82 := by decide
      rw [this]
      rfl
    rw [hfrm]
    have := read_maskFrame 0x82 key m HKind.binary hkey (by omega)
      (by decide) (by decide)
    rw [this]
    have hfin : (0x82 : Nat) &&& 0x80 = 0x80 := by decide
    rw [hfin]
  · intro m s key hkey hs hsne hlen
    have hms : utf8Encode s = m := utf8_roundtrip hs
    rw [send_text_some_eq m OPCODE_TEXT s hs, if_neg hsne]
    simp only [send_text_framing, hms]
    rw [if_pos hlen]
    simp only [List.flatten, List.append_nil]
    have hfrm : [FIN ||| OPCODE_TEXT, m.length] ++ m
        = (0x81 : Nat) :: m.length :: m := by
      have : FIN ||| OPCODE_TEXT = 0x81 := by decide
      rw [this]
      rfl
    rw [hfrm]
    have := read_maskFrame 0x81 key m HKind.text hkey hlen
      (by decide) (by decide)
    rw [this]
    have hfin : (0x81 : Nat) &&& 0x80 = 0x80 := by decide
    rw [hfin]
  · intro s key hkey hlen
    rw [send_text_str]
    simp only [send_text_framing]
    rw [if_pos hlen]
    simp only [List.flatten, List.append_nil]
    have hfrm : [FIN ||| OPCODE_TEXT, (utf8Encode s).length] ++ utf8Encode s
        = (0x81 : Nat) :: (utf8Encode s).length :: utf8Encode s := by
      have : FIN ||| OPCODE_TEXT = 0x81 := by decide
      rw [this]
      rfl
    rw [hfrm]
    have := read_maskFrame 0x81 key (utf8Encode s) HKind.text hkey hlen
      (by decide) (by decide)
    rw [this]
    have hfin : (0x81 : Nat) &&& 0x80 = 0x80 := by decide
    rw [hfin]

/-- Witness for C4 (amended): a 3-byte binary payload, a 2-byte text
payload, and the empty text payload via the `str` path, each masked with the
key `[1, 2, 3, 4]`, all round-trip through the parser. -/
theorem decode_encode_amended_witness :
    read_next_message (maskFrame [1, 2, 3, 4]
        ((send_binary [5, 6, 7] OPCODE_BINARY).flatten))
      = ReadOutcome.deliver HKind.binary [5, 6, 7] 0x80 [] ∧
    read_next_message (maskFrame [1, 2, 3, 4]
        ((send_text [104, 105] OPCODE_TEXT).1.flatten))
      = ReadOutcome.deliver HKind.text [104, 105] 0x80 [] ∧
    read_next_message (maskFrame [1, 2, 3, 4]
        ((send_text_str [] OPCODE_TEXT).1.flatten))
      = ReadOutcome.deliver HKind.text (utf8Encode []) 0x80 [] := by
  refine ⟨?_, ?_, ?_⟩
  · exact decode_encode_amended.1 [5, 6, 7] [1, 2, 3, 4] (by decide) (by decide)
  · exact decode_encode_amended.2.1 [104, 105] [104, 105] [1, 2, 3, 4]
      (by decide) (by decide) (by decide) (by decide)
  · exact decode_encode_amended.2.2 [] [1, 2, 3, 4] (by decide) (by decide)

/-! ### One step of the frame loop (`handle` + the `_*_received_` dispatch
in `WebsocketServer`, lines 90-103) -/

/-- Per-connection state as this model observes it: the `keep_alive` flag of
the handler's frame loop plus the fragmentation fields the demo application
keeps on the handler object (`message_or_binary`, `message_buffer`,
`binary_buffer`; `server.py`). -/
structure ConnState where
  keepAlive : Bool
  message_or_binary : Nat
  message_buffer : List Nat
  binary_buffer : List Nat
deriving DecidableEq, Repr

/-- Python exceptions this model distinguishes (`structError` stands for
the `struct.error`/`IndexError` family a truncated frame raises). -/
inductive PyErr where
  | typeError
  | attributeError
  | structError
deriving DecidableEq, Repr

/-- Outcome of one iteration of the frame loop: either the loop goes on (or
ends cleanly) with the new state and the bytes sent, or an exception
escaped the iteration — `handle` guards only the 2-byte header read, so any
later exception kills the connection's thread and `finish()` runs. -/
inductive StepOutcome where
  | ok (st : ConnState) (sends : List (List Nat))
  | uncaught (e : PyErr)
deriving DecidableEq, Repr

/-- The parameter count, after `self`-binding, of each `_*_received_`
method of `WebsocketServer` (lines 90-103): `_message_received_`,
`_binary_received_` and `_continuation_received_` take
`(handler, msg, fin)`, but `_ping_received_` and `_pong_received_` take
only `(handler, msg)`. -/
def receivedArity : HKind → Nat
  | .text => 3
  | .binary => 3
  | .continuation => 3
  | .ping => 2
  | .pong => 2

/-- One iteration of the post-handshake frame loop: parse one frame with
`read_next_message`; close/unmasked/unknown frames clear `keep_alive`, a
truncated frame raises out of the thread, and a delivered frame is
dispatched as `opcode_handler(self, message_bytes, fin)` — always *three*
positional arguments.  For text/binary/continuation handlers that matches
their signature and the assignable application callbacks (abstracted as
`app`) run; for `_ping_received_` and `_pong_received_`, which accept only
two arguments, the call itself raises `TypeError`, so no pong is ever sent
and the connection is torn down. -/
def core_step (app : HKind → List Nat → Nat → ConnState → ConnState × List (List Nat))
    (st : ConnState) (input : List Nat) : StepOutcome :=
  match read_next_message input with
  | .closed => .ok { st with keepAlive := false } []
  | .err => .uncaught PyErr.structError
  | .deliver k p fin _ =>
    if receivedArity k = 3 then
      match app k p fin st with
      | (st2, out) => .ok st2 out
    else .uncaught PyErr.typeError

/-- C8 (code bug).  A masked ping never produces a pong.  The dispatch
`opcode_handler(self, message_bytes, fin)` passes three arguments to the
two-parameter `_ping_received_`, so every masked ping raises a `TypeError`
that escapes `handle` and tears the connection down — no pong, no surviving
connection, contrary to the claim's reply-and-state-unchanged behaviour.
Independently, even if the call were repaired, `_ping_received_` would hand
`send_pong` the inbound `bytearray`, which fails `send_text`'s
`isinstance` checks, returning `False` without sending.  Evaluated at a
masked ping carrying the byte `"h"` under mask key `[9, 9, 9, 9]`. -/
theorem ping_never_ponged :
    core_step (fun _ _ _ s => (s, [])) ⟨true, 0, [], []⟩
        (maskFrame [9, 9, 9, 9] ((0x89 : Nat) :: [104].length :: [104]))
      = StepOutcome.uncaught PyErr.typeError ∧
    send_pong [104] = ([], PyRet.retFalse) := by
  refine ⟨by decide, rfl⟩

/-! ### Handshake accept key (`calculate_response_key`, lines 464-468)

`hashlib.sha1` (FIPS 180 SHA-1) and `base64.b64encode` are modelled over
byte lists; `bytes.strip` and the final `decode('ASCII')` likewise (the
latter is the identity on the ASCII codes base64 produces). -/

/-- The character codes of a Python `str` literal (ASCII in every use
here). -/
def strCodes (s : String) : List Nat := s.data.map Char.toNat

/-- 32-bit left rotation. -/
def rotl32 (n x : Nat) : Nat := ((x <<< n) ||| (x >>> (32 - n))) % 4294967296

/-- `n`-byte big-endian serialisation of `x`. -/
def toBytesBE (n x : Nat) : List Nat :=
  (List.range n).map (fun i => x / 256 ^ (n - 1 - i) % 256)

/-- SHA-1 padding: one `0x80` byte, zeros up to 56 mod 64, then the bit
length as a big-endian 64-bit integer. -/
def sha1Pad (msg : List Nat) : List Nat :=
  msg ++ [0x80] ++ List.replicate ((119 - msg.length % 64) % 64) 0
    ++ toBytesBE 8 (msg.length * 8)

/-- Big-endian 32-bit words from bytes (always a multiple of 4 here). -/
def bytesToWordsBE : List Nat → List Nat
  | b0 :: b1 :: b2 :: b3 :: r =>
    (((b0 * 256 + b1) * 256 + b2) * 256 + b3) :: bytesToWordsBE r
  | _ => []

/-- Extend a block's 16 words by one scheduled word
(`w[t] = rotl1 (w[t-3] ^ w[t-8] ^ w[t-14] ^ w[t-16])`), `n` times. -/
def sha1Extend (acc : List Nat) : Nat → List Nat
  | 0 => acc
  | n + 1 =>
    let w := rotl32 1 ((acc.getD (acc.length - 3) 0) ^^^ (acc.getD (acc.length - 8) 0)
      ^^^ (acc.getD (acc.length - 14) 0) ^^^ (acc.getD (acc.length - 16) 0))
    sha1Extend (acc ++ [w]) n

/-- The 80 rounds of one SHA-1 block, one scheduled word per round. -/
def sha1Rounds (t : Nat) (ws : List Nat) (st : Nat × Nat × Nat × Nat × Nat) :
    Nat × Nat × Nat × Nat × Nat :=
  match ws with
  | [] => st
  | w :: ws2 =>
    match st with
    | (a, b, c, d, e) =>
      let f :=
        if t < 20 then (b &&& c) ||| ((4294967295 ^^^ b) &&& d)
        else if t < 40 then b ^^^ c ^^^ d
        else if t < 60 then (b &&& c) ||| (b &&& d) ||| (c &&& d)
        else b ^^^ c ^^^ d
      let k :=
        if t < 20 then 0x5A827999
        else if t < 40 then 0x6ED9EBA1
        else if t < 60 then 0x8F1BBCDC
        else 0xCA62C1D6
      let temp := (rotl32 5 a + f + e + k + w) % 4294967296
      sha1Rounds (t + 1) ws2 (temp, a, rotl32 30 b, c, d)

/-- Compress successive 16-word blocks into the running state. -/
def sha1Blocks (st : Nat × Nat × Nat × Nat × Nat) :
    List Nat → Nat × Nat × Nat × Nat × Nat
  | w0 :: w1 :: w2 :: w3 :: w4 :: w5 :: w6 :: w7 ::
      w8 :: w9 :: w10 :: w11 :: w12 :: w13 :: w14 :: w15 :: rest =>
    match st with
    | (h0, h1, h2, h3, h4) =>
      let ws := sha1Extend
        [w0, w1, w2, w3, w4, w5, w6, w7, w8, w9, w10, w11, w12, w13, w14, w15] 64
      match sha1Rounds 0 ws (h0, h1, h2, h3, h4) with
      | (a, b, c, d, e) =>
        sha1Blocks ((h0 + a) % 4294967296, (h1 + b) % 4294967296,
          (h2 + c) % 4294967296, (h3 + d) % 4294967296, (h4 + e) % 4294967296) rest
  | _ => st

/-- `hashlib.sha1(data).digest()`: the 20-byte SHA-1 digest. -/
def sha1Digest (msg : List Nat) : List Nat :=
  match sha1Blocks (0x67452301, 0xEFCDAB89, 0x98BADCFE, 0x10325476, 0xC3D2E1F0)
      (bytesToWordsBE (sha1Pad msg)) with
  | (h0, h1, h2, h3, h4) =>
    toBytesBE 4 h0 ++ toBytesBE 4 h1 ++ toBytesBE 4 h2
      ++ toBytesBE 4 h3 ++ toBytesBE 4 h4

/-- The base64 alphabet. -/
def base64Table : List Nat :=
  strCodes "ABCDEFGHIJKLMNOPQRSTUVWXYZabcdefghijklmnopqrstuvwxyz0123456789+/"

/-- `base64.b64encode` over bytes (61 is the code of the padding sign). -/
def base64Encode : List Nat → List Nat
  | b0 :: b1 :: b2 :: r =>
    base64Table.getD (b0 >>> 2) 0 ::
    base64Table.getD (((b0 &&& 3) <<< 4) ||| (b1 >>> 4)) 0 ::
    base64Table.getD (((b1 &&& 15) <<< 2) ||| (b2 >>> 6)) 0 ::
    base64Table.getD (b2 &&& 63) 0 :: base64Encode r
  | [b0, b1] =>
    [base64Table.getD (b0 >>> 2) 0,
      base64Table.getD (((b0 &&& 3) <<< 4) ||| (b1 >>> 4)) 0,
      base64Table.getD ((b1 &&& 15) <<< 2) 0, 61]
  | [b0] =>
    [base64Table.getD (b0 >>> 2) 0,
      base64Table.getD ((b0 &&& 3) <<< 4) 0, 61, 61]
  | [] => []

/-- ASCII whitespace, as `bytes.strip()` removes it. -/
def isPySpace (b : Nat) : Bool :=
  b = 9 || b = 10 || b = 11 || b = 12 || b = 13 || b = 32

/-- `bytes.strip()`: drop ASCII whitespace from both ends. -/
def pyStrip (bs : List Nat) : List Nat :=
  ((bs.dropWhile isPySpace).reverse.dropWhile isPySpace).reverse

/-- The fixed handshake GUID (line 465). -/
def GUID : List Nat := strCodes "258EAFA5-E914-47DA-95CA-C5AB0DC85B11"

/-- `calculate_response_key(key)`: base64 of the SHA-1 digest of
`key.encode() + GUID.encode()`, stripped; the final `decode('ASCII')` is
the identity on these codes. -/
def calculate_response_key (key : List Nat) : List Nat :=
  pyStrip (base64Encode (sha1Digest (utf8Encode key ++ utf8Encode GUID)))

set_option maxRecDepth 100000 in
/-- C5.  For every client key, `calculate_response_key` returns the base64
encoding of the SHA-1 digest of the key concatenated with the fixed GUID
`258EAFA5-E914-47DA-95CA-C5AB0DC85B11`; in particular on the RFC 6455 test
vector `"dGhlIHNhbXBsZSBub25jZQ=="` it returns exactly
`"s3pPLMBiTxaQ9kYGzzhZRbK+xOo="`. -/
theorem calculate_response_key_spec :
    (∀ key : List Nat, calculate_response_key key
        = pyStrip (base64Encode (sha1Digest (utf8Encode key ++ utf8Encode GUID)))) ∧
    calculate_response_key (strCodes "dGhlIHNhbXBsZSBub25jZQ==")
      = strCodes "s3pPLMBiTxaQ9kYGzzhZRbK+xOo=" := by
  refine ⟨fun key => rfl, by decide⟩

/-! ### Connection registry (`WebsocketServer`, lines 71-152) -/

/-- One entry of `WebsocketServer.clients`: the dictionary
`{'id': ..., 'handler': ..., 'address': ...}`, with the handler object and
the address abstracted to numbers. -/
structure Client where
  id : Nat
  handler : Nat
  address : Nat
deriving DecidableEq, Repr

/-- `handler_to_client` (lines 121-124): the first registered client whose
handler matches; the Python function falls off the end and returns `None`
when there is none. -/
def handler_to_client (clients : List Client) (h : Nat) : Option Client :=
  clients.find? (fun c => c.handler == h)

/-- `_client_left_(handler)` (lines 115-119), with the registered
`client_left` callback: look the handler up (possibly getting `None`), call
the callback on the result — an exception there propagates, and the removal
below then never runs — and finally remove the client from the list when
`client in self.clients` (`None` is never in the list). -/
def client_left_step (clientLeftCb : Option Client → Except PyErr Unit)
    (clients : List Client) (h : Nat) : Except PyErr (List Client) :=
  let client := handler_to_client clients h
  match clientLeftCb client with
  | .error e => .error e
  | .ok _ =>
    match client with
    | some c => .ok (if c ∈ clients then clients.erase c else clients)
    | none => .ok clients

/-- The demo application's `client_left` callback (`server.py`, lines
14-15): it formats `client['id']`, and subscripting `None` raises a
`TypeError` when the client record is absent. -/
def app_client_left (client : Option Client) : Except PyErr Unit :=
  match client with
  | none => .error .typeError
  | some _ => .ok ()

/-- C9 counterexample.  Unregistering a handler that is not in the registry
is not a no-op and can raise: `handler_to_client` returns `None`, which is
passed to the client-left callback before any membership check, and the
repository's own registered callback subscripts it, raising `TypeError`. -/
theorem unregister_absent_counterexample :
    client_left_step app_client_left [] 7 = Except.error PyErr.typeError := rfl

/-- C9 (amended).  Unregistering an absent handler leaves the registry
unmodified and the core itself raises nothing — but it is not a silent
no-op: the client-left callback still fires, with `None` in place of a
client record, and its outcome (normal return, or an exception as with this
repository's callback) is the outcome of the unregistration. -/
theorem unregister_absent_amended
    (clientLeftCb : Option Client → Except PyErr Unit)
    (clients : List Client) (h : Nat)
    (habsent : handler_to_client clients h = none) :
    client_left_step clientLeftCb clients h
      = (match clientLeftCb none with
          | .error e => Except.error e
          | .ok _ => Except.ok clients) := by
  simp only [client_left_step, habsent]

/-- Witness for C9 (amended): a one-client registry and an unknown handler;
with the repository's callback the unregistration raises `TypeError` and the
registry is untouched. -/
theorem unregister_absent_amended_witness :
    client_left_step app_client_left [⟨1, 5, 0⟩] 99
      = Except.error PyErr.typeError := by
  rw [unregister_absent_amended app_client_left [⟨1, 5, 0⟩] 99 (by decide)]
  rfl

/-- The attribute names bound on class `WebsocketServer` (lines 46-152:
class attributes, `__init__` and methods).  Neither this class nor its
bases (`ThreadingMixIn`, `TCPServer`, `BaseServer`, `object`) binds
`_unicast_` anywhere. -/
def websocketServerAttrs : List String :=
  ["allow_reuse_address", "daemon_threads", "clients", "id_counter",
    "__init__", "run_forever", "_message_received_", "_binary_received_",
    "_continuation_received_", "_ping_received_", "_pong_received_",
    "_new_client_", "_client_left_", "handler_to_client",
    "set_new_client_handler", "set_client_left_handler",
    "set_message_received_handler", "set_binary_received_handler",
    "set_continuation_received_handler", "send_message", "send_binary",
    "send_continuation", "send_message_to_all"]

/-- `send_message_to_all(msg)` (lines 150-152): `for client in
self.clients: self._unicast_(client, msg)`.  Each iteration first resolves
the attribute `_unicast_` on the server object; when the name is bound
nowhere on the instance, the class or its bases, the lookup raises
`AttributeError`.  Returns the (client, payload) deliveries made before any
exception, and the exception if one was raised. -/
def send_message_to_all (clients : List Client) (msg : List Nat) :
    List (Client × List Nat) × Option PyErr :=
  match clients with
  | [] => ([], none)
  | c :: cs =>
    if "_unicast_" ∈ websocketServerAttrs then
      let rest := send_message_to_all cs msg
      ((c, msg) :: rest.1, rest.2)
    else ([], some .attributeError)

/-- C3 (code bug).  `_unicast_` does not exist on `WebsocketServer` or any
of its bases, so a broadcast to one registered client raises
`AttributeError` on the first loop iteration and delivers the payload to no
one — for every N ≥ 1 the claim (deliver to all N, never raise) fails.
With zero clients the loop body never runs, which is the only reason the
call can return at all. -/
theorem broadcast_raises_attribute_error :
    send_message_to_all [⟨1, 1, 0⟩] [104, 105]
      = ([], some PyErr.attributeError) ∧
    send_message_to_all [] [104, 105] = ([], none) := by
  refine ⟨by decide, by decide⟩

/-! ### Fragmentation state shared across connections
(`WebSocketHandler`, lines 155-159, with the `server.py` callbacks)

`message_or_binary = 0`, `message_buffer = ''` and
`binary_buffer = bytearray()` are *class* attributes of `WebSocketHandler`:
the single `bytearray` object is created once, when the class body runs.
Reading `handler.binary_buffer` on an instance that never assigned it falls
back to that shared class object, and `handler.binary_buffer += data` calls
`bytearray.__iadd__`, which mutates the shared object in place and rebinds
the instance attribute to that same object.  (`str` and `int` are
immutable, so `+=`/`=` on the other two fields create genuine per-instance
attributes.)  The model: a heap of `bytearray` objects, reference 0 being
the class-level `bytearray`, plus per-connection instance-attribute records
that are `none` until first assignment. -/

/-- Instance attributes of one `WebSocketHandler`; `none` means the
attribute was never assigned on this instance, so a read falls back to the
class attribute. -/
structure InstAttrs where
  message_or_binary : Option Nat
  message_buffer : Option (List Nat)
  binary_buffer : Option Nat
deriving DecidableEq, Repr

def emptyAttrs : InstAttrs := ⟨none, none, none⟩

/-- The class-level `bytearray()` of line 159: heap reference 0. -/
def classBinaryBufferRef : Nat := 0

/-- The process state: the `bytearray` heap (reference 0 holds the
class-level buffer, empty when the class body ran) and the
instance-attribute records of the handlers, one per connection. -/
structure PyHeapState where
  heap : List (List Nat)
  inst : List InstAttrs
deriving DecidableEq, Repr

/-- Fresh state with `n` connections, none of which has assigned any of the
three fragmentation attributes yet. -/
def initState (n : Nat) : PyHeapState :=
  ⟨[[]], List.replicate n emptyAttrs⟩

/-- Attribute lookup for `handler.binary_buffer`: the instance attribute if
assigned, else the class attribute's object. -/
def binaryBufferRef (s : PyHeapState) (h : Nat) : Nat :=
  ((s.inst.getD h emptyAttrs).binary_buffer).getD classBinaryBufferRef

/-- The bytes `handler.binary_buffer` currently denotes. -/
def readBinaryBuffer (s : PyHeapState) (h : Nat) : List Nat :=
  s.heap.getD (binaryBufferRef s h) []

/-- `client['handler'].binary_buffer += message`: `__iadd__` extends the
object found by lookup in place, then the statement rebinds the instance
attribute to the returned object — which is that very same object. -/
def binaryBufferIAdd (s : PyHeapState) (h : Nat) (message : List Nat) :
    PyHeapState :=
  let r := binaryBufferRef s h
  let a := s.inst.getD h emptyAttrs
  { heap := s.heap.set r (s.heap.getD r [] ++ message),
    inst := s.inst.set h { a with binary_buffer := some r } }

/-- `client['handler'].message_or_binary = v` (an ordinary instance-attribute
assignment). -/
def setMessageOrBinary (s : PyHeapState) (h : Nat) (v : Nat) : PyHeapState :=
  let a := s.inst.getD h emptyAttrs
  { s with inst := s.inst.set h { a with message_or_binary := some v } }

/-- The non-final branch of the demo `binary_handler` (`server.py`, lines
69-71): `binary_buffer += message; message_or_binary = 1` — the same
`binary_buffer += message` accumulation the `continuation_handler` performs
on its non-final branch (line 99). -/
def binary_handler_frag (s : PyHeapState) (h : Nat) (message : List Nat) :
    PyHeapState :=
  setMessageOrBinary (binaryBufferIAdd s h message) h 1

/-- C1 (code bug).  Two connections, each receiving one non-final binary
frame: connection 0 accumulates byte `1`, then connection 1 accumulates
byte `2`.  Because `binary_buffer` is a class-level `bytearray`, both
handlers accumulate into the *same object*: afterwards each one's
`binary_buffer` reads `[1, 2]`, so connection 1's accumulator contains
connection 0's byte — the claimed isolation (which demands `[1]` and `[2]`
respectively) is violated. -/
theorem fragmentation_buffer_shared :
    readBinaryBuffer
        (binary_handler_frag (binary_handler_frag (initState 2) 0 [1]) 1 [2]) 1
      = [1, 2] ∧
    readBinaryBuffer
        (binary_handler_frag (binary_handler_frag (initState 2) 0 [1]) 1 [2]) 0
      = [1, 2] ∧
    ([1, 2] : List Nat) ≠ [2] := by
  refine ⟨by decide, by decide, by decide⟩
